import Mathlib

/-!
Verification of the sandbox daemon and its git synchronization engine.

The development shallowly embeds the Rust sources (`src/git.rs`,
`src/daemon.rs`, `src/sync.rs`, `src/daemon_protocol.rs`) into Lean:
pure functions become Lean functions, the daemon accept loop becomes an
explicit step function over a state record and a list of per-iteration
inputs, and the external `git` subprocess is modelled by the documented
ref-update semantics of `git fetch`.  Times are milliseconds as `Nat`.
-/

namespace Sandbox

/-! ## Git model

Commits are abstract identifiers (`Nat`).  The commit graph lives in the
external git object store; the program only observes it through fetch
results, so the ancestry test is carried as an opaque boolean predicate
in the world state.  Ref names are structured by their namespace, which
is what `git fetch` dispatches on when deciding whether a non-forced
update is allowed. -/

/-- A fully qualified git ref name, split by namespace. -/
inductive RefName
  | heads (branch : String)
  | tags (tag : String)
  | remotes (remote : String) (branch : String)
deriving DecidableEq

/-- A git repository as a map from ref names to commit ids. -/
structure Repo where
  refs : List (RefName × Nat)
deriving DecidableEq

/-- Look a ref up in a ref list. -/
def lookupRef : List (RefName × Nat) → RefName → Option Nat
  | [], _ => none
  | (k, v) :: rest, n => if k = n then some v else lookupRef rest n

/-- Point a ref at a commit, replacing an existing entry. -/
def setRef : List (RefName × Nat) → RefName → Nat → List (RefName × Nat)
  | [], n, c => [(n, c)]
  | (k, v) :: rest, n, c =>
    if k = n then (n, c) :: rest else (k, v) :: setRef rest n c

def Repo.lookup (r : Repo) (n : RefName) : Option Nat := lookupRef r.refs n

def Repo.set (r : Repo) (n : RefName) (c : Nat) : Repo := ⟨setRef r.refs n c⟩

/-- A fetch refspec `[+]src:dst`.  The sync functions in `git.rs` build
their refspecs with `format!` and none of them writes a leading `+`, nor
do they pass `--force`; the `force` field records exactly that bit. -/
structure RefSpec where
  force : Bool
  src : RefName
  dst : RefName

/-- Whether a destination-ref update from `old` to `tip` is accepted by
`git fetch` without force, per git-fetch(1): updates of `refs/heads/*`
must be fast-forwards, updates of `refs/tags/*` are refused, and any
update outside those two hierarchies (for instance `refs/remotes/*`) is
accepted. -/
def updateAllowed (isAnc : Nat → Nat → Bool) (dst : RefName)
    (old : Option Nat) (tip : Nat) : Bool :=
  match dst with
  | .heads _ =>
    match old with
    | none => true
    | some o => isAnc o tip
  | .tags _ =>
    match old with
    | none => true
    | some _ => false
  | .remotes _ _ => true

/-- One `git fetch <src-repo> <refspec>` executed in `dst` repo:
resolve the source ref, then update the destination ref subject to the
force/fast-forward rules.  A rejected update makes the subprocess exit
nonzero, which the Rust wrappers turn into an error. -/
def gitFetch (isAnc : Nat → Nat → Bool) (src dst : Repo) (spec : RefSpec) :
    Except String Repo :=
  match src.lookup spec.src with
  | none => .error "cannot find ref in source repository"
  | some tip =>
    let old := dst.lookup spec.dst
    if old = some tip then .ok dst
    else if spec.force || updateAllowed isAnc spec.dst old tip then
      .ok (dst.set spec.dst tip)
    else .error "non-fast-forward update rejected"

/-- The three repositories the daemon synchronizes, plus the external
commit graph (`isAncestor o t` holds when `o` is reachable from `t`, so
an update `o → t` is a fast-forward) and the result of
`git symbolic-ref --short HEAD` in the host repo. -/
structure GitWorld where
  host : Repo
  meta : Repo
  clone : Repo
  isAncestor : Nat → Nat → Bool
  headBranch : Option String

/-- `git.rs::get_primary_branch`: the branch `HEAD` points at if
`symbolic-ref` succeeds with nonempty output, otherwise `main` if
`refs/heads/main` exists in the host repo, otherwise `master`. -/
def get_primary_branch (w : GitWorld) : String :=
  let fallback := if (w.host.lookup (.heads "main")).isSome then "main" else "master"
  match w.headBranch with
  | some b => if b = "" then fallback else b
  | none => fallback

/-- `git.rs::sync_sandbox_to_meta`: in `meta_git_dir`, run
`git fetch <sandbox_repo> <branch>:refs/heads/<branch>`.
The refspec carries no `+`, so `force := false`. -/
def sync_sandbox_to_meta (w : GitWorld) (branch : String) :
    Except String GitWorld :=
  (gitFetch w.isAncestor w.clone w.meta
      ⟨false, .heads branch, .heads branch⟩).map fun m => { w with meta := m }

/-- `git.rs::sync_main_to_meta`: in `meta_git_dir`, run
`git fetch <host_repo> <primary>:refs/heads/<primary>`.
The refspec carries no `+`, so `force := false`. -/
def sync_main_to_meta (w : GitWorld) : Except String GitWorld :=
  let branch := get_primary_branch w
  (gitFetch w.isAncestor w.host w.meta
      ⟨false, .heads branch, .heads branch⟩).map fun m => { w with meta := m }

/-- `git.rs::sync_meta_to_host`: in the host repo, run
`git fetch <meta_git_dir> refs/heads/<branch>:refs/remotes/sandbox/<branch>`.
The refspec carries no `+`; its destination is outside `refs/heads`. -/
def sync_meta_to_host (w : GitWorld) (branch : String) :
    Except String GitWorld :=
  (gitFetch w.isAncestor w.meta w.host
      ⟨false, .heads branch, .remotes "sandbox" branch⟩).map
    fun h => { w with host := h }

/-- Whether a sync step succeeded. -/
def syncOk : Except String GitWorld → Bool
  | .ok _ => true
  | .error _ => false

/-! ## Concrete worlds used for evaluation

`amendWorld` is the history-rewrite scenario of `tests/sync.rs`
(`test_sync_with_history_rewrite`): commit `1` was synced into the hub
under `refs/heads/work`, then amended in the sandbox clone to commit
`2`, which does not descend from `1`.  The same graph also stages the
host-side rewrite that `test_host_history_rewrite_syncs_to_sandbox`
exercises: the host primary branch `master` moved from `3` to `4` while
the hub still holds `3`. -/
def amendWorld : GitWorld where
  host := ⟨[(.heads "master", 4)]⟩
  meta := ⟨[(.heads "master", 3), (.heads "work", 1)]⟩
  clone := ⟨[(.heads "work", 2)]⟩
  isAncestor := fun a b => a = b
  headBranch := some "master"

/-- A world in which every pending sync step fast-forwards cleanly:
the clone advanced `4 → 5` on `work` and ancestry is numeric order. -/
def ffWorld : GitWorld where
  host := ⟨[(.heads "master", 0)]⟩
  meta := ⟨[(.heads "master", 0), (.heads "work", 4)]⟩
  clone := ⟨[(.heads "work", 5)]⟩
  isAncestor := fun a b => Nat.ble a b
  headBranch := some "master"

/-- A world in which the sandbox-to-hub step fails (amended clone tip)
while everything else is untouched. -/
def rejectWorld : GitWorld where
  host := ⟨[(.heads "master", 0)]⟩
  meta := ⟨[(.heads "master", 0), (.heads "work", 1)]⟩
  clone := ⟨[(.heads "work", 2)]⟩
  isAncestor := fun _ _ => false
  headBranch := some "master"

/-- C1: the spec and the tests require every sync fetch to force-update
its destination, but after a history rewrite `sync_sandbox_to_meta` and
`sync_main_to_meta` are rejected as non-fast-forward (their refspecs
lack `+`/`--force` and their destinations are under `refs/heads`),
leaving the hub on the old tips; forcing the same refspec would have
succeeded and moved the refs.  Only `sync_meta_to_host` force-updates,
because its destination lies under `refs/remotes`. -/
theorem c1_sync_fetches_not_forced :
    syncOk (sync_sandbox_to_meta amendWorld "work") = false
    ∧ syncOk (sync_main_to_meta amendWorld) = false
    ∧ (gitFetch amendWorld.isAncestor amendWorld.clone amendWorld.meta
        ⟨true, .heads "work", .heads "work"⟩).toOption.map
          (fun w => w.lookup (.heads "work")) = some (some 2)
    ∧ (gitFetch amendWorld.isAncestor amendWorld.host amendWorld.meta
        ⟨true, .heads "master", .heads "master"⟩).toOption.map
          (fun w => w.lookup (.heads "master")) = some (some 4)
    ∧ syncOk (sync_meta_to_host amendWorld "work") = true := by
  refine ⟨by decide, by decide, by decide, by decide, by decide⟩

/-! ## The sync cycle

`daemon.rs::run_daemon_with_sync` (lines 491-538) and
`sync.rs::run_sync_daemon` (lines 97-138) share the same per-iteration
sync logic: when the pending flag is set and more than 500ms have
elapsed since `last_sync`, run `sync_sandbox_to_meta` and, only if it
succeeded, `sync_meta_to_host`; independently, when more than 30s have
elapsed since `last_main_sync`, run `sync_main_to_meta`.  Errors are
logged and the loop continues. -/

/-- The git sub-operations a cycle may perform.  `hubToSandbox` is the
fetch of the hub branch back into the sandbox clone that the spec
describes; `git.rs::fetch_branch` could perform it but has no caller,
so no cycle ever emits it. -/
inductive SyncOp
  | sandboxToMeta
  | metaToHost
  | mainToMeta
  | hubToSandbox
deriving DecidableEq

/-- The mutable sync state of the daemon loop (`pending_sync`,
`last_sync`, `last_main_sync`, all times in ms). -/
structure SyncState where
  pendingSync : Bool
  lastSync : Nat
  lastMainSync : Nat
deriving DecidableEq

def debounceMs : Nat := 500

def mainSyncIntervalMs : Nat := 30000

/-- One sandbox-to-host sync pass: `sync_sandbox_to_meta`, then
`sync_meta_to_host` only when the first step succeeded (the source uses
`if let Err ... else if let Err ...`).  Returns the updated world and
the operations that were executed, in order.  A failed fetch leaves the
world unchanged. -/
def syncPass (w : GitWorld) (branch : String) : GitWorld × List SyncOp :=
  match sync_sandbox_to_meta w branch with
  | .error _ => (w, [.sandboxToMeta])
  | .ok w1 =>
    match sync_meta_to_host w1 branch with
    | .error _ => (w1, [.sandboxToMeta, .metaToHost])
    | .ok w2 => (w2, [.sandboxToMeta, .metaToHost])

/-- The debounced sandbox-sync block (`daemon.rs` lines 510-529,
`sync.rs` lines 99-123): when the pending flag is set and more than
500ms have elapsed since `last_sync`, run the sandbox-to-host pass,
clear the flag and stamp `last_sync`. -/
def debouncePart (branch : String) (now : Nat) (st : SyncState)
    (w : GitWorld) : SyncState × GitWorld × List SyncOp :=
  if st.pendingSync ∧ debounceMs < now - st.lastSync then
    let p := syncPass w branch
    ({ st with pendingSync := false, lastSync := now }, p.1, p.2)
  else (st, w, [])

/-- The periodic main-branch block (`daemon.rs` lines 531-537,
`sync.rs` lines 125-138): every 30 seconds, fetch the host's primary
branch into the hub; a failure is logged and ignored. -/
def mainPart (now : Nat) (st : SyncState) (w : GitWorld) :
    SyncState × GitWorld × List SyncOp :=
  if mainSyncIntervalMs < now - st.lastMainSync then
    ({ st with lastMainSync := now },
     (match sync_main_to_meta w with
      | .error _ => w
      | .ok w' => w'),
     [.mainToMeta])
  else (st, w, [])

/-- The per-iteration sync logic shared by `daemon.rs` (lines 508-537)
and `sync.rs` (lines 97-138): the debounced sandbox pass, then the
periodic main-branch sync. -/
def syncCycle (branch : String) (now : Nat) (st : SyncState) (w : GitWorld) :
    SyncState × GitWorld × List SyncOp :=
  let d := debouncePart branch now st w
  let m := mainPart now d.1 d.2.1
  (m.1, m.2.1, d.2.2 ++ m.2.2)

theorem syncPass_shape (w : GitWorld) (branch : String) :
    (syncPass w branch).2 = [.sandboxToMeta]
      ∧ syncOk (sync_sandbox_to_meta w branch) = false
    ∨ (syncPass w branch).2 = [.sandboxToMeta, .metaToHost]
      ∧ syncOk (sync_sandbox_to_meta w branch) = true := by
  unfold syncPass syncOk
  rcases sync_sandbox_to_meta w branch with e | w1
  · simp
  · rcases h2 : sync_meta_to_host w1 branch with e2 | w2 <;> simp [h2]

theorem debouncePart_fired (branch : String) (now : Nat) (st : SyncState)
    (w : GitWorld) (h : st.pendingSync = true ∧ debounceMs < now - st.lastSync) :
    debouncePart branch now st w
      = ({ st with pendingSync := false, lastSync := now },
         (syncPass w branch).1, (syncPass w branch).2) := by
  unfold debouncePart
  rw [if_pos h]

theorem debouncePart_idle (branch : String) (now : Nat) (st : SyncState)
    (w : GitWorld) (h : ¬(st.pendingSync = true ∧ debounceMs < now - st.lastSync)) :
    debouncePart branch now st w = (st, w, []) := by
  unfold debouncePart
  rw [if_neg h]

theorem debouncePart_lastMainSync (branch : String) (now : Nat)
    (st : SyncState) (w : GitWorld) :
    (debouncePart branch now st w).1.lastMainSync = st.lastMainSync := by
  unfold debouncePart
  split <;> rfl

theorem mainPart_ops (now : Nat) (st : SyncState) (w : GitWorld) :
    (mainPart now st w).2.2
      = if mainSyncIntervalMs < now - st.lastMainSync then [.mainToMeta]
        else [] := by
  unfold mainPart
  split <;> rfl

theorem mainPart_state (now : Nat) (st : SyncState) (w : GitWorld) :
    (mainPart now st w).1.pendingSync = st.pendingSync
    ∧ (mainPart now st w).1.lastSync = st.lastSync := by
  unfold mainPart
  split <;> exact ⟨rfl, rfl⟩

/-- The operation list the spec's four-step description would produce on
every cycle. -/
def specFourOps : List SyncOp :=
  [.sandboxToMeta, .mainToMeta, .metaToHost, .hubToSandbox]

/-- C3 counterexample: a debounce-expiry cycle (pending flag set, 1000ms
since the last sync, main-branch timer not due) executes exactly the two
operations sandbox-to-hub and hub-to-host, not the four operations the
claim lists; in particular the hub is never fetched back into the
sandbox clone. -/
theorem c3_cycle_two_ops_counterexample :
    (syncCycle "work" 1000 ⟨true, 0, 0⟩ ffWorld).2.2
      = [.sandboxToMeta, .metaToHost]
    ∧ (syncCycle "work" 1000 ⟨true, 0, 0⟩ ffWorld).2.2 ≠ specFourOps
    ∧ SyncOp.hubToSandbox ∉ (syncCycle "work" 1000 ⟨true, 0, 0⟩ ffWorld).2.2 := by
  refine ⟨by decide, by decide, by decide⟩

/-- C3 amended: a cycle executes a subsequence of
`[sandboxToMeta, metaToHost, mainToMeta]` in that order: the debounced
pass contributes `sandboxToMeta` and, only if that fetch succeeded,
`metaToHost`; the 30-second timer independently contributes
`mainToMeta`.  The hub is never fetched back into the sandbox clone,
and a freshly initialized state (pending flag clear, both timestamps at
startup time) performs no debounced pass, so there is no eager
sandbox sync on startup. -/
theorem c3_cycle_structure (branch : String) (now : Nat) (st : SyncState)
    (w : GitWorld) :
    List.Sublist (syncCycle branch now st w).2.2
        [.sandboxToMeta, .metaToHost, .mainToMeta]
    ∧ SyncOp.hubToSandbox ∉ (syncCycle branch now st w).2.2
    ∧ (SyncOp.metaToHost ∈ (syncCycle branch now st w).2.2 →
        syncOk (sync_sandbox_to_meta w branch) = true)
    ∧ (∀ t0, SyncOp.sandboxToMeta ∉ (syncCycle branch now ⟨false, t0, t0⟩ w).2.2) := by
  have hshape :
      ∀ st' : SyncState,
        (syncCycle branch now st' w).2.2
          = (debouncePart branch now st' w).2.2
              ++ (mainPart now (debouncePart branch now st' w).1
                    (debouncePart branch now st' w).2.1).2.2 := fun _ => rfl
  refine ⟨?_, ?_, ?_, ?_⟩
  · rw [hshape, mainPart_ops]
    by_cases h : st.pendingSync = true ∧ debounceMs < now - st.lastSync
    · rw [debouncePart_fired branch now st w h]
      rcases syncPass_shape w branch with ⟨hops, _⟩ | ⟨hops, _⟩ <;>
        simp only [hops] <;> split <;> simp <;> decide
    · rw [debouncePart_idle branch now st w h]
      split <;> simp <;> decide
  · rw [hshape, mainPart_ops]
    by_cases h : st.pendingSync = true ∧ debounceMs < now - st.lastSync
    · rw [debouncePart_fired branch now st w h]
      rcases syncPass_shape w branch with ⟨hops, _⟩ | ⟨hops, _⟩ <;>
        simp only [hops] <;> split <;> simp <;> decide
    · rw [debouncePart_idle branch now st w h]
      split <;> simp <;> decide
  · rw [hshape, mainPart_ops]
    by_cases h : st.pendingSync = true ∧ debounceMs < now - st.lastSync
    · rw [debouncePart_fired branch now st w h]
      rcases syncPass_shape w branch with ⟨hops, hok⟩ | ⟨hops, hok⟩ <;>
        simp only [hops] <;> split <;> simp [hok]
    · rw [debouncePart_idle branch now st w h]
      split <;> simp
  · intro t0
    rw [hshape, mainPart_ops]
    rw [debouncePart_idle branch now ⟨false, t0, t0⟩ w (by simp)]
    split <;> simp <;> decide

/-- C3 witness: at a concrete successful cycle the sublist, absence and
success-condition facts instantiate. -/
theorem c3_cycle_structure_witness :
    List.Sublist (syncCycle "work" 1000 ⟨true, 0, 0⟩ ffWorld).2.2
        [.sandboxToMeta, .metaToHost, .mainToMeta]
    ∧ syncOk (sync_sandbox_to_meta ffWorld "work") = true := by
  refine ⟨(c3_cycle_structure "work" 1000 ⟨true, 0, 0⟩ ffWorld).1, ?_⟩
  exact (c3_cycle_structure "work" 1000 ⟨true, 0, 0⟩ ffWorld).2.2.1 (by decide)

/-- C4 counterexample: in a cycle whose sandbox-to-hub fetch fails (the
clone tip `2` is not a descendant of the hub tip `1`), the hub-to-host
fetch is not executed in that cycle, contradicting the claim that it
still executes. -/
theorem c4_meta_to_host_skipped_counterexample :
    syncOk (sync_sandbox_to_meta rejectWorld "work") = false
    ∧ (syncCycle "work" 1000 ⟨true, 0, 0⟩ rejectWorld).2.2 = [.sandboxToMeta]
    ∧ SyncOp.metaToHost ∉ (syncCycle "work" 1000 ⟨true, 0, 0⟩ rejectWorld).2.2 := by
  refine ⟨by decide, by decide, by decide⟩

/-- C4 amended: when `sync_sandbox_to_meta` fails, the error is logged
and the cycle skips `sync_meta_to_host`; the failure does not abort the
loop: the cycle still completes (the pending flag is cleared and
`last_sync` is stamped, so the next ref change retries), and the
independent main-branch sync still runs when its timer is due. -/
theorem c4_failed_step_skips_meta_to_host (branch : String) (now : Nat)
    (st : SyncState) (w : GitWorld) (e : String)
    (herr : sync_sandbox_to_meta w branch = .error e)
    (hpend : st.pendingSync = true)
    (hdeb : debounceMs < now - st.lastSync) :
    (syncCycle branch now st w).2.2
      = [.sandboxToMeta]
          ++ (if mainSyncIntervalMs < now - st.lastMainSync
              then [.mainToMeta] else [])
    ∧ SyncOp.metaToHost ∉ (syncCycle branch now st w).2.2
    ∧ (syncCycle branch now st w).1.pendingSync = false
    ∧ (syncCycle branch now st w).1.lastSync = now := by
  have hfire := debouncePart_fired branch now st w ⟨hpend, hdeb⟩
  have hops : (syncPass w branch).2 = [.sandboxToMeta] := by
    unfold syncPass
    rw [herr]
  have hshape :
      syncCycle branch now st w
        = ((mainPart now (debouncePart branch now st w).1
              (debouncePart branch now st w).2.1).1,
           (mainPart now (debouncePart branch now st w).1
              (debouncePart branch now st w).2.1).2.1,
           (debouncePart branch now st w).2.2
             ++ (mainPart now (debouncePart branch now st w).1
                   (debouncePart branch now st w).2.1).2.2) := rfl
  rw [hshape, hfire]
  simp only [mainPart_ops, hops]
  refine ⟨by simp, ?_, ?_, ?_⟩
  · split <;> simp <;> decide
  · exact ((mainPart_state now _ _).1).trans rfl
  · exact ((mainPart_state now _ _).2).trans rfl

/-- C4 witness: the amended behaviour at the concrete failing world. -/
theorem c4_failed_step_skips_meta_to_host_witness :
    (syncCycle "work" 1000 ⟨true, 0, 0⟩ rejectWorld).2.2
      = [.sandboxToMeta]
          ++ (if mainSyncIntervalMs < 1000 - (0 : Nat)
              then [.mainToMeta] else [])
    ∧ SyncOp.metaToHost ∉ (syncCycle "work" 1000 ⟨true, 0, 0⟩ rejectWorld).2.2
    ∧ (syncCycle "work" 1000 ⟨true, 0, 0⟩ rejectWorld).1.pendingSync = false
    ∧ (syncCycle "work" 1000 ⟨true, 0, 0⟩ rejectWorld).1.lastSync = 1000 :=
  c4_failed_step_skips_meta_to_host "work" 1000 ⟨true, 0, 0⟩ rejectWorld
    "non-fast-forward update rejected" rfl rfl (by decide)

/-! ## The watch loop and the debounce discipline

`sync.rs::run_sync_daemon` (and identically `daemon.rs` lines 492-506)
receives at most one watcher event per loop iteration; a non-access
event sets the pending flag.  An iteration is modelled by its wall-clock
time and the event the channel delivered, if any. -/

/-- One loop iteration's observations: the current time and the watcher
event received, if any (`some isAccess`). -/
structure WatchInput where
  now : Nat
  event : Option Bool

/-- Event handling: a non-access event sets the pending flag
(`sync.rs` lines 78-95, `daemon.rs` lines 493-506). -/
def applyEvent (ev : Option Bool) (st : SyncState) : SyncState :=
  match ev with
  | some isAccess => if isAccess then st else { st with pendingSync := true }
  | none => st

/-- One full loop iteration: consume the event, then run the sync
cycle. -/
def watchIter (branch : String) (inp : WatchInput) (st : SyncState)
    (w : GitWorld) : SyncState × GitWorld × List SyncOp :=
  syncCycle branch inp.now (applyEvent inp.event st) w

/-- Run the watch loop over a list of iteration inputs, recording for
each iteration its time and the git operations it performed. -/
def runWatch (branch : String) (st : SyncState) (w : GitWorld) :
    List WatchInput → List (Nat × List SyncOp)
  | [] => []
  | inp :: rest =>
    let r := watchIter branch inp st w
    (inp.now, r.2.2) :: runWatch branch r.1 r.2.1 rest

/-- The times at which a trace performed the debounced sandbox sync. -/
def syncTimes (tr : List (Nat × List SyncOp)) : List Nat :=
  (tr.filter fun p => decide (SyncOp.sandboxToMeta ∈ p.2)).map Prod.fst

theorem applyEvent_lastSync (ev : Option Bool) (st : SyncState) :
    (applyEvent ev st).lastSync = st.lastSync := by
  unfold applyEvent
  rcases ev with _ | isAccess
  · rfl
  · dsimp only
    split <;> rfl

theorem syncCycle_lastSync_fired (branch : String) (now : Nat)
    (st : SyncState) (w : GitWorld)
    (h : st.pendingSync = true ∧ debounceMs < now - st.lastSync) :
    (syncCycle branch now st w).1.lastSync = now
    ∧ SyncOp.sandboxToMeta ∈ (syncCycle branch now st w).2.2 := by
  have hshape :
      syncCycle branch now st w
        = ((mainPart now (debouncePart branch now st w).1
              (debouncePart branch now st w).2.1).1,
           (mainPart now (debouncePart branch now st w).1
              (debouncePart branch now st w).2.1).2.1,
           (debouncePart branch now st w).2.2
             ++ (mainPart now (debouncePart branch now st w).1
                   (debouncePart branch now st w).2.1).2.2) := rfl
  rw [hshape, debouncePart_fired branch now st w h]
  constructor
  · exact ((mainPart_state now _ _).2).trans rfl
  · rcases syncPass_shape w branch with ⟨hops, _⟩ | ⟨hops, _⟩ <;> simp [hops]

theorem syncCycle_lastSync_idle (branch : String) (now : Nat)
    (st : SyncState) (w : GitWorld)
    (h : ¬(st.pendingSync = true ∧ debounceMs < now - st.lastSync)) :
    (syncCycle branch now st w).1.lastSync = st.lastSync
    ∧ SyncOp.sandboxToMeta ∉ (syncCycle branch now st w).2.2 := by
  have hshape :
      syncCycle branch now st w
        = ((mainPart now (debouncePart branch now st w).1
              (debouncePart branch now st w).2.1).1,
           (mainPart now (debouncePart branch now st w).1
              (debouncePart branch now st w).2.1).2.1,
           (debouncePart branch now st w).2.2
             ++ (mainPart now (debouncePart branch now st w).1
                   (debouncePart branch now st w).2.1).2.2) := rfl
  rw [hshape, debouncePart_idle branch now st w h]
  constructor
  · exact ((mainPart_state now _ _).2).trans rfl
  · rw [mainPart_ops]
    split <;> simp

/-- C5 counterexample: the loop starts at time 0 (so `last_sync = 0`);
the first and only ref-change event arrives at t = 600ms and sets the
pending flag; the very same iteration syncs, because the debounce
window is measured from `last_sync`, not from the moment the flag was
set: 0ms (not 500ms) elapse between the flag being set and the sync. -/
theorem c5_debounce_counterexample :
    runWatch "work" ⟨false, 0, 0⟩ ffWorld [⟨600, some false⟩]
      = [(600, [.sandboxToMeta, .metaToHost])]
    ∧ (∃ t ∈ syncTimes (runWatch "work" ⟨false, 0, 0⟩ ffWorld
          [⟨600, some false⟩]), t < 600 + debounceMs) := by
  refine ⟨by decide, by decide⟩

/-- C5 amended: the 500ms debounce is measured from the previous sync
(`last_sync`), not from the moment the pending flag was set.  What the
code guarantees is a rate limit: along any run with nondecreasing
iteration times, consecutive debounced syncs (and startup and the first
sync, since `last_sync` is initialized to the start time) are separated
by more than 500ms.  A pending flag set more than 500ms after the
previous sync triggers a sync on the very next iteration, possibly far
less than 500ms after the flag was set. -/
theorem c5_sync_rate_limited (branch : String) (w : GitWorld) (t0 : Nat)
    (inputs : List WatchInput)
    (hmono : List.Chain' (· ≤ ·) (t0 :: inputs.map WatchInput.now)) :
    List.Chain' (fun a b => debounceMs < b - a)
      (t0 :: syncTimes (runWatch branch ⟨false, t0, t0⟩ w inputs)) := by
  suffices h :
      ∀ (inputs : List WatchInput) (st : SyncState) (w : GitWorld),
        List.Chain' (· ≤ ·) (st.lastSync :: inputs.map WatchInput.now) →
        List.Chain' (fun a b => debounceMs < b - a)
          (st.lastSync :: syncTimes (runWatch branch st w inputs)) by
    exact h inputs ⟨false, t0, t0⟩ w hmono
  intro inputs
  induction inputs with
  | nil =>
    intro st w _
    simp [runWatch, syncTimes]
  | cons inp rest ih =>
    intro st w hmono
    have hmono' : List.Chain' (· ≤ ·) (inp.now :: rest.map WatchInput.now) :=
      (List.chain'_cons.mp hmono).2
    have hrw :
        runWatch branch st w (inp :: rest)
          = (inp.now, (watchIter branch inp st w).2.2)
              :: runWatch branch (watchIter branch inp st w).1
                  (watchIter branch inp st w).2.1 rest := rfl
    rw [hrw]
    by_cases hf : (applyEvent inp.event st).pendingSync = true
        ∧ debounceMs < inp.now - (applyEvent inp.event st).lastSync
    · have hc := syncCycle_lastSync_fired branch inp.now
        (applyEvent inp.event st) w hf
      have hmem : SyncOp.sandboxToMeta ∈ (watchIter branch inp st w).2.2 :=
        hc.2
      have hls : (watchIter branch inp st w).1.lastSync = inp.now := hc.1
      have hst : syncTimes ((inp.now, (watchIter branch inp st w).2.2)
            :: runWatch branch (watchIter branch inp st w).1
                (watchIter branch inp st w).2.1 rest)
          = inp.now :: syncTimes (runWatch branch (watchIter branch inp st w).1
              (watchIter branch inp st w).2.1 rest) := by
        simp [syncTimes, hmem]
      rw [hst]
      rw [List.chain'_cons]
      constructor
      · have : (applyEvent inp.event st).lastSync = st.lastSync :=
          applyEvent_lastSync inp.event st
        rw [this] at hf
        exact hf.2
      · have := ih (watchIter branch inp st w).1
          (watchIter branch inp st w).2.1 (by rw [hls]; exact hmono')
        rwa [hls] at this
    · have hc := syncCycle_lastSync_idle branch inp.now
        (applyEvent inp.event st) w hf
      have hmem : SyncOp.sandboxToMeta ∉ (watchIter branch inp st w).2.2 :=
        hc.2
      have hls : (watchIter branch inp st w).1.lastSync
          = st.lastSync := hc.1.trans (applyEvent_lastSync inp.event st)
      have hst : syncTimes ((inp.now, (watchIter branch inp st w).2.2)
            :: runWatch branch (watchIter branch inp st w).1
                (watchIter branch inp st w).2.1 rest)
          = syncTimes (runWatch branch (watchIter branch inp st w).1
              (watchIter branch inp st w).2.1 rest) := by
        simp [syncTimes, hmem]
      rw [hst]
      have hmono'' :
          List.Chain' (· ≤ ·) (st.lastSync :: rest.map WatchInput.now) := by
        refine List.Chain'.sublist hmono ?_
        exact List.Sublist.cons₂ _ (List.sublist_cons_self _ _)
      have := ih (watchIter branch inp st w).1
        (watchIter branch inp st w).2.1 (by rw [hls]; exact hmono'')
      rwa [hls] at this

/-- C5 witness: instantiating the rate limit on a two-iteration run in
which the first iteration syncs at t = 600 and the second, despite a
fresh event at t = 900, does not sync until the window has passed. -/
theorem c5_sync_rate_limited_witness :
    List.Chain' (fun a b => debounceMs < b - a)
      (0 :: syncTimes (runWatch "work" ⟨false, 0, 0⟩ ffWorld
        [⟨600, some false⟩, ⟨900, some false⟩])) :=
  c5_sync_rate_limited "work" ffWorld 0
    [⟨600, some false⟩, ⟨900, some false⟩] (by simp)

/-! ## The daemon lifecycle (`daemon.rs::run_daemon_with_sync`)

The accept loop is modelled as a step function over the daemon state
and one observation record per loop iteration.  The externally visible
effects of an iteration are recorded as an action list; logging is
elided.  The action vocabulary includes the request-read and
JSON-response operations of `daemon_protocol.rs` so that their absence
from every emitted trace is expressible: `run_daemon_with_sync` never
calls `server::read_request`, `server::send_ensure_sandbox_ok` or
`server::send_error`; its only per-client output is the single ready
byte `0u8` written by `write_all`. -/

/-- Externally visible daemon operations, in program order. -/
inductive DaemonAction
  | bindScratchSocket
  | publishSocket
  | acquireLock
  | releaseLock
  | readRequestLine
  | sendJsonResponse
  | writeReadyByte
  | startContainer
  | stopContainer
  | gitOp (op : SyncOp)
  | removeSocket
deriving DecidableEq

/-- `daemon.rs::bind_socket`: bind a scratch socket, then publish it by
hard-linking to the public path.  If the public path already exists
another daemon won that race and startup aborts.  No lock file is
touched anywhere in the function. -/
def bind_socket (publicPathTaken : Bool) : List DaemonAction × Bool :=
  if publicPathTaken then ([.bindScratchSocket], false)
  else ([.bindScratchSocket, .publishSocket], true)

/-- The daemon loop's mutable state (`daemon.rs` lines 365-378):
connected clients, queued pending clients, the container flag and the
sync-engine timers. -/
structure DaemonState where
  clients : Nat
  pendingClients : Nat
  containerStarted : Bool
  sync : SyncState
deriving DecidableEq

/-- The state at loop entry: no clients, container not started, both
sync timestamps at start time, pending flag clear. -/
def initialDaemonState : DaemonState :=
  ⟨0, 0, false, ⟨false, 0, 0⟩⟩

/-- One loop iteration's observations: elapsed ms since daemon start,
whether `accept` returned a new connection, whether a container start
attempted this iteration would succeed, whether the watcher setup
performed after a successful first start (`RecommendedWatcher::new`
and `watcher.watch`, `daemon.rs` lines 430-439, both propagated with
the question-mark operator) would succeed, how many connected clients
hit EOF in the liveness sweep, and the watcher event delivered, if
any. -/
structure LoopInput where
  now : Nat
  accept : Bool
  containerStartOk : Bool
  watcherOk : Bool
  disconnects : Nat
  fsEvent : Option Bool

def firstClientTimeoutMs : Nat := 30000

/-- Accept handling (`daemon.rs` lines 381-460): a new client is either
acknowledged immediately (container already running) or queued; the
first queued client triggers the synchronous container start.  A start
failure makes the daemon remove the socket and return the error
(lines 447-451).  On start success the queued clients are sent their
ready bytes first, and only then is the ref watcher created and armed
(lines 430-439); a failure there is propagated by the question-mark
operator straight out of `run_daemon_with_sync` — without any socket
cleanup.  `Except.error` carries the actions of the failing path. -/
def acceptPhase (inp : LoopInput) (st : DaemonState) :
    Except (List DaemonAction) (DaemonState × List DaemonAction) :=
  if inp.accept then
    if st.containerStarted then
      .ok ({ st with clients := st.clients + 1 }, [.writeReadyByte])
    else
      if st.pendingClients = 0 then
        if inp.containerStartOk then
          if inp.watcherOk then
            .ok ({ st with containerStarted := true,
                           clients := st.clients + (st.pendingClients + 1),
                           pendingClients := 0 },
                 [.startContainer]
                   ++ List.replicate (st.pendingClients + 1) .writeReadyByte)
          else
            .error ([.startContainer]
              ++ List.replicate (st.pendingClients + 1) .writeReadyByte)
        else .error [.startContainer, .removeSocket]
      else .ok ({ st with pendingClients := st.pendingClients + 1 }, [])
  else .ok (st, [])

/-- One final sandbox-to-host pass plus container stop and socket
removal: the teardown sequence after the accept loop breaks
(`daemon.rs` lines 543-564). -/
def teardown (branch : String) (w : GitWorld) : List DaemonAction :=
  (syncPass w branch).2.map .gitOp ++ [.stopContainer, .removeSocket]

/-- Result of one loop iteration. -/
inductive StepOut
  | next (st : DaemonState) (w : GitWorld) (acts : List DaemonAction)
  | exitOk (acts : List DaemonAction)
  | exitErr (acts : List DaemonAction)

/-- The part of a loop iteration after accept handling (`daemon.rs`
lines 462-541): the liveness sweep subtracts the clients that hit EOF,
then the drain-shutdown check, the first-client-timeout check, and
(only with a running container) watcher-event consumption and the sync
cycle. -/
def afterAccept (branch : String) (inp : LoopInput) (st1 : DaemonState)
    (acts1 : List DaemonAction) (w : GitWorld) : StepOut :=
  if st1.containerStarted = true ∧ st1.clients - inp.disconnects = 0
      ∧ st1.pendingClients = 0 then
    .exitOk (acts1 ++ teardown branch w)
  else if st1.containerStarted = false ∧ st1.clients - inp.disconnects = 0
      ∧ st1.pendingClients = 0 ∧ firstClientTimeoutMs < inp.now then
    .exitOk (acts1 ++ [.removeSocket])
  else if st1.containerStarted = true then
    .next { st1 with
              clients := st1.clients - inp.disconnects,
              sync := (syncCycle branch inp.now
                        (applyEvent inp.fsEvent st1.sync) w).1 }
      (syncCycle branch inp.now (applyEvent inp.fsEvent st1.sync) w).2.1
      (acts1 ++ (syncCycle branch inp.now
                  (applyEvent inp.fsEvent st1.sync) w).2.2.map .gitOp)
  else .next { st1 with clients := st1.clients - inp.disconnects } w acts1

/-- One iteration of the daemon loop (`daemon.rs` lines 380-541), in
source order: accept handling, then the sweep, shutdown checks and
sync cycle. -/
def daemonStep (branch : String) (inp : LoopInput) (st : DaemonState)
    (w : GitWorld) : StepOut :=
  match acceptPhase inp st with
  | .error acts => .exitErr acts
  | .ok (st1, acts1) => afterAccept branch inp st1 acts1 w

/-- Result of running the loop on a list of iteration inputs. -/
inductive RunResult
  | finished (ok : Bool) (acts : List DaemonAction)
  | running (st : DaemonState) (w : GitWorld) (acts : List DaemonAction)

def RunResult.acts : RunResult → List DaemonAction
  | .finished _ acts => acts
  | .running _ _ acts => acts

def runLoop (branch : String) : List LoopInput → DaemonState → GitWorld →
    List DaemonAction → RunResult
  | [], st, w, acc => .running st w acc
  | inp :: rest, st, w, acc =>
    match daemonStep branch inp st w with
    | .next st' w' acts => runLoop branch rest st' w' (acc ++ acts)
    | .exitOk acts => .finished true (acc ++ acts)
    | .exitErr acts => .finished false (acc ++ acts)

/-- `daemon.rs::run_daemon_with_sync` (lines 343-358 and the loop):
bind and publish the socket, then set the listener non-blocking — a
failure there returns the error with the socket already published and
not removed (lines 352-358 have no `cleanup_socket`) — then run the
accept loop. -/
def run_daemon_with_sync (branch : String) (publicPathTaken : Bool)
    (setNonblockingOk : Bool) (w : GitWorld) (inputs : List LoopInput) :
    RunResult :=
  let b := bind_socket publicPathTaken
  if b.2 then
    if setNonblockingOk then runLoop branch inputs initialDaemonState w b.1
    else .finished false b.1
  else .finished false b.1

def StepOut.acts : StepOut → List DaemonAction
  | .next _ _ a => a
  | .exitOk a => a
  | .exitErr a => a

def StepOut.isErr : StepOut → Bool
  | .exitErr _ => true
  | _ => false

/-- The actions of the accept phase, whichever way it ends. -/
def acceptActs (inp : LoopInput) (st : DaemonState) : List DaemonAction :=
  match acceptPhase inp st with
  | .error a => a
  | .ok (_, a) => a

/-- Actions the daemon loop can emit: per-client ready bytes, container
start/stop, git operations and socket removal — in particular no lock
operation, no request read and no JSON response. -/
def loopAction (a : DaemonAction) : Prop :=
  a = .writeReadyByte ∨ a = .startContainer ∨ a = .stopContainer
    ∨ a = .removeSocket ∨ ∃ op, a = .gitOp op

theorem acceptPhase_noaccept (inp : LoopInput) (st : DaemonState)
    (h : inp.accept = false) : acceptPhase inp st = .ok (st, []) := by
  simp [acceptPhase, h]

theorem acceptPhase_started (inp : LoopInput) (st : DaemonState)
    (h : inp.accept = true) (h2 : st.containerStarted = true) :
    acceptPhase inp st
      = .ok ({ st with clients := st.clients + 1 }, [.writeReadyByte]) := by
  simp [acceptPhase, h, h2]

theorem acceptPhase_first_ok (inp : LoopInput) (st : DaemonState)
    (h : inp.accept = true) (h2 : st.containerStarted = false)
    (h3 : st.pendingClients = 0) (h4 : inp.containerStartOk = true)
    (h5 : inp.watcherOk = true) :
    acceptPhase inp st
      = .ok ({ st with containerStarted := true,
                       clients := st.clients + (st.pendingClients + 1),
                       pendingClients := 0 },
             [.startContainer]
               ++ List.replicate (st.pendingClients + 1) .writeReadyByte) := by
  simp [acceptPhase, h, h2, h3, h4, h5]

theorem acceptPhase_watcher_fail (inp : LoopInput) (st : DaemonState)
    (h : inp.accept = true) (h2 : st.containerStarted = false)
    (h3 : st.pendingClients = 0) (h4 : inp.containerStartOk = true)
    (h5 : inp.watcherOk = false) :
    acceptPhase inp st = .error [.startContainer, .writeReadyByte] := by
  simp [acceptPhase, h, h2, h3, h4, h5, List.replicate]

theorem acceptPhase_first_fail (inp : LoopInput) (st : DaemonState)
    (h : inp.accept = true) (h2 : st.containerStarted = false)
    (h3 : st.pendingClients = 0) (h4 : inp.containerStartOk = false) :
    acceptPhase inp st = .error [.startContainer, .removeSocket] := by
  simp [acceptPhase, h, h2, h3, h4]

theorem acceptPhase_queue (inp : LoopInput) (st : DaemonState)
    (h : inp.accept = true) (h2 : st.containerStarted = false)
    (h3 : st.pendingClients ≠ 0) :
    acceptPhase inp st
      = .ok ({ st with pendingClients := st.pendingClients + 1 }, []) := by
  simp [acceptPhase, h, h2, h3]

theorem acceptActs_subset (inp : LoopInput) (st : DaemonState) :
    ∀ a ∈ acceptActs inp st, loopAction a := by
  intro a ha
  unfold loopAction
  by_cases h : inp.accept = true
  · by_cases h2 : st.containerStarted = true
    · rw [acceptActs, acceptPhase_started inp st h h2] at ha
      simp at ha
      simp [ha]
    · rw [Bool.not_eq_true] at h2
      by_cases h3 : st.pendingClients = 0
      · by_cases h4 : inp.containerStartOk = true
        · by_cases h5 : inp.watcherOk = true
          · rw [acceptActs, acceptPhase_first_ok inp st h h2 h3 h4 h5] at ha
            simp at ha
            rcases ha with hb | hb <;> simp [hb]
          · rw [Bool.not_eq_true] at h5
            rw [acceptActs,
              acceptPhase_watcher_fail inp st h h2 h3 h4 h5] at ha
            simp at ha
            rcases ha with hb | hb <;> simp [hb]
        · rw [Bool.not_eq_true] at h4
          rw [acceptActs, acceptPhase_first_fail inp st h h2 h3 h4] at ha
          simp at ha
          rcases ha with hb | hb <;> simp [hb]
      · rw [acceptActs, acceptPhase_queue inp st h h2 h3] at ha
        simp at ha
  · rw [Bool.not_eq_true] at h
    rw [acceptActs, acceptPhase_noaccept inp st h] at ha
    simp at ha

theorem teardown_subset (branch : String) (w : GitWorld) :
    ∀ a ∈ teardown branch w, loopAction a := by
  intro a ha
  unfold teardown at ha
  unfold loopAction
  rcases List.mem_append.mp ha with h | h
  · rcases List.mem_map.mp h with ⟨op, _, rfl⟩
    exact Or.inr (Or.inr (Or.inr (Or.inr ⟨op, rfl⟩)))
  · simp at h
    rcases h with h | h <;> simp [h]

theorem daemonStep_of_error (branch : String) (inp : LoopInput)
    (st : DaemonState) (w : GitWorld) (acts : List DaemonAction)
    (h : acceptPhase inp st = .error acts) :
    daemonStep branch inp st w = .exitErr acts := by
  unfold daemonStep
  rw [h]

theorem daemonStep_of_ok (branch : String) (inp : LoopInput)
    (st st1 : DaemonState) (w : GitWorld) (acts1 : List DaemonAction)
    (h : acceptPhase inp st = .ok (st1, acts1)) :
    daemonStep branch inp st w = afterAccept branch inp st1 acts1 w := by
  unfold daemonStep
  rw [h]

theorem afterAccept_subset (branch : String) (inp : LoopInput)
    (st1 : DaemonState) (acts1 : List DaemonAction) (w : GitWorld)
    (h1 : ∀ a ∈ acts1, loopAction a) :
    ∀ a ∈ (afterAccept branch inp st1 acts1 w).acts, loopAction a := by
  intro a ha
  unfold afterAccept at ha
  split at ha
  · simp only [StepOut.acts] at ha
    rcases List.mem_append.mp ha with hb | hb
    · exact h1 a hb
    · exact teardown_subset branch w a hb
  · split at ha
    · simp only [StepOut.acts] at ha
      rcases List.mem_append.mp ha with hb | hb
      · exact h1 a hb
      · simp at hb
        simp [loopAction, hb]
    · split at ha
      · simp only [StepOut.acts] at ha
        rcases List.mem_append.mp ha with hb | hb
        · exact h1 a hb
        · rcases List.mem_map.mp hb with ⟨op, _, rfl⟩
          exact Or.inr (Or.inr (Or.inr (Or.inr ⟨op, rfl⟩)))
      · simp only [StepOut.acts] at ha
        exact h1 a ha

theorem daemonStep_acts_subset (branch : String) (inp : LoopInput)
    (st : DaemonState) (w : GitWorld) :
    ∀ a ∈ (daemonStep branch inp st w).acts, loopAction a := by
  have hacc := acceptActs_subset inp st
  rcases h : acceptPhase inp st with acts | ⟨st1, acts1⟩
  · rw [daemonStep_of_error branch inp st w acts h]
    rw [acceptActs, h] at hacc
    exact hacc
  · rw [daemonStep_of_ok branch inp st st1 w acts1 h]
    rw [acceptActs, h] at hacc
    exact afterAccept_subset branch inp st1 acts1 w hacc

theorem afterAccept_exit_last (branch : String) (inp : LoopInput)
    (st1 : DaemonState) (acts1 : List DaemonAction) (w : GitWorld)
    (acts : List DaemonAction)
    (h : afterAccept branch inp st1 acts1 w = .exitOk acts) :
    ∃ pre, acts = pre ++ [.removeSocket] := by
  unfold afterAccept at h
  split at h
  · simp only [StepOut.exitOk.injEq] at h
    refine ⟨acts1 ++ (syncPass w branch).2.map .gitOp ++ [.stopContainer], ?_⟩
    rw [← h]
    unfold teardown
    simp
  · split at h
    · simp only [StepOut.exitOk.injEq] at h
      exact ⟨acts1, h.symm⟩
    · split at h <;> exact absurd h (by simp)

/-- Every iteration that breaks the loop normally (an `exitOk`: the
drain or the first-client-timeout path) ends its action list with the
socket removal.  The error exits do not all share this: the
container-start failure removes the socket, but the watcher-setup
failure does not. -/
theorem daemonStep_exitOk_last (branch : String) (inp : LoopInput)
    (st : DaemonState) (w : GitWorld) (acts : List DaemonAction) :
    daemonStep branch inp st w = .exitOk acts →
    ∃ pre, acts = pre ++ [.removeSocket] := by
  intro h
  rcases hacc : acceptPhase inp st with acts0 | ⟨st1, acts1⟩
  · rw [daemonStep_of_error branch inp st w acts0 hacc] at h
    exact absurd h (by simp)
  · rw [daemonStep_of_ok branch inp st st1 w acts1 hacc] at h
    exact afterAccept_exit_last branch inp st1 acts1 w acts h

theorem afterAccept_drain (branch : String) (inp : LoopInput)
    (st1 : DaemonState) (acts1 : List DaemonAction) (w : GitWorld)
    (h1 : st1.containerStarted = true)
    (h2 : st1.clients - inp.disconnects = 0) (h3 : st1.pendingClients = 0) :
    afterAccept branch inp st1 acts1 w = .exitOk (acts1 ++ teardown branch w) := by
  simp [afterAccept, h1, h2, h3]

theorem afterAccept_timeout (branch : String) (inp : LoopInput)
    (st1 : DaemonState) (acts1 : List DaemonAction) (w : GitWorld)
    (h1 : st1.containerStarted = false)
    (h2 : st1.clients - inp.disconnects = 0) (h3 : st1.pendingClients = 0)
    (h4 : firstClientTimeoutMs < inp.now) :
    afterAccept branch inp st1 acts1 w
      = .exitOk (acts1 ++ [.removeSocket]) := by
  simp [afterAccept, h1, h2, h3, h4]

theorem afterAccept_quiet_next (branch : String) (inp : LoopInput)
    (st1 : DaemonState) (acts1 : List DaemonAction) (w : GitWorld)
    (h1 : st1.containerStarted = false)
    (h4 : ¬firstClientTimeoutMs < inp.now) :
    afterAccept branch inp st1 acts1 w
      = .next { st1 with clients := st1.clients - inp.disconnects } w acts1 := by
  simp [afterAccept, h1, h4]

theorem afterAccept_sync_acts (branch : String) (inp : LoopInput)
    (st1 : DaemonState) (acts1 : List DaemonAction) (w : GitWorld)
    (h1 : st1.containerStarted = true)
    (hn : ¬(st1.clients - inp.disconnects = 0 ∧ st1.pendingClients = 0)) :
    (afterAccept branch inp st1 acts1 w).acts
      = acts1 ++ (syncCycle branch inp.now
          (applyEvent inp.fsEvent st1.sync) w).2.2.map .gitOp := by
  simp [afterAccept, h1, hn, StepOut.acts]

theorem runLoop_acts_subset (branch : String) :
    ∀ (inputs : List LoopInput) (st : DaemonState) (w : GitWorld)
      (acc : List DaemonAction),
      ∀ a ∈ (runLoop branch inputs st w acc).acts, a ∈ acc ∨ loopAction a := by
  intro inputs
  induction inputs with
  | nil =>
    intro st w acc a ha
    exact Or.inl ha
  | cons inp rest ih =>
    intro st w acc a ha
    have hsub := daemonStep_acts_subset branch inp st w
    rcases hstep : daemonStep branch inp st w with ⟨st', w', acts⟩ | acts | acts
    · rw [show runLoop branch (inp :: rest) st w acc
          = runLoop branch rest st' w' (acc ++ acts) by
        simp only [runLoop]; rw [hstep]] at ha
      rcases ih st' w' (acc ++ acts) a ha with h | h
      · rcases List.mem_append.mp h with h | h
        · exact Or.inl h
        · rw [hstep] at hsub
          exact Or.inr (hsub a h)
      · exact Or.inr h
    · rw [show runLoop branch (inp :: rest) st w acc
          = .finished true (acc ++ acts) by
        simp only [runLoop]; rw [hstep]] at ha
      simp only [RunResult.acts] at ha
      rcases List.mem_append.mp ha with h | h
      · exact Or.inl h
      · rw [hstep] at hsub
        exact Or.inr (hsub a h)
    · rw [show runLoop branch (inp :: rest) st w acc
          = .finished false (acc ++ acts) by
        simp only [runLoop]; rw [hstep]] at ha
      simp only [RunResult.acts] at ha
      rcases List.mem_append.mp ha with h | h
      · exact Or.inl h
      · rw [hstep] at hsub
        exact Or.inr (hsub a h)

theorem runLoop_finished_true_last (branch : String) :
    ∀ (inputs : List LoopInput) (st : DaemonState) (w : GitWorld)
      (acc : List DaemonAction) (acts : List DaemonAction),
      runLoop branch inputs st w acc = .finished true acts →
      ∃ pre, acts = pre ++ [.removeSocket] := by
  intro inputs
  induction inputs with
  | nil =>
    intro st w acc acts h
    exact absurd h (by simp [runLoop])
  | cons inp rest ih =>
    intro st w acc acts h
    rcases hstep : daemonStep branch inp st w with ⟨st', w', acts0⟩ | acts0 | acts0
    · rw [show runLoop branch (inp :: rest) st w acc
          = runLoop branch rest st' w' (acc ++ acts0) by
        simp only [runLoop]; rw [hstep]] at h
      exact ih st' w' (acc ++ acts0) acts h
    · rw [show runLoop branch (inp :: rest) st w acc
          = .finished true (acc ++ acts0) by
        simp only [runLoop]; rw [hstep]] at h
      rcases daemonStep_exitOk_last branch inp st w acts0 hstep
        with ⟨pre, hpre⟩
      simp only [RunResult.finished.injEq] at h
      refine ⟨acc ++ pre, ?_⟩
      rw [← h.2, hpre, List.append_assoc]
    · rw [show runLoop branch (inp :: rest) st w acc
          = .finished false (acc ++ acts0) by
        simp only [runLoop]; rw [hstep]] at h
      simp only [RunResult.finished.injEq] at h
      exact absurd h.1.symm (by simp)

theorem runLoop_quiet (branch : String) :
    ∀ (inputs : List LoopInput) (st : DaemonState) (w : GitWorld)
      (acc : List DaemonAction),
      st.clients = 0 → st.pendingClients = 0 → st.containerStarted = false →
      (∀ i ∈ inputs, i.accept = false) →
      (∃ i ∈ inputs, firstClientTimeoutMs < i.now) →
      runLoop branch inputs st w acc = .finished true (acc ++ [.removeSocket]) := by
  intro inputs
  induction inputs with
  | nil =>
    intro st w acc _ _ _ _ hlate
    rcases hlate with ⟨i, hi, _⟩
    exact absurd hi (List.not_mem_nil i)
  | cons inp rest ih =>
    intro st w acc h1 h2 h3 hno hlate
    have hacc : inp.accept = false := hno inp (List.mem_cons_self inp rest)
    have hap := acceptPhase_noaccept inp st hacc
    have hstep := daemonStep_of_ok branch inp st st w [] hap
    have hcl : st.clients - inp.disconnects = 0 := by
      rw [h1]
      exact Nat.zero_sub _
    by_cases ht : firstClientTimeoutMs < inp.now
    · have haa := afterAccept_timeout branch inp st [] w h3 hcl h2 ht
      rw [show runLoop branch (inp :: rest) st w acc
            = .finished true (acc ++ ([] ++ [.removeSocket])) by
          simp only [runLoop]; rw [hstep, haa]]
      simp
    · have haa := afterAccept_quiet_next branch inp st [] w h3 ht
      rw [show runLoop branch (inp :: rest) st w acc
            = runLoop branch rest
                { st with clients := st.clients - inp.disconnects } w (acc ++ []) by
          simp only [runLoop]; rw [hstep, haa]]
      rw [List.append_nil]
      refine ih { st with clients := st.clients - inp.disconnects } w acc
        hcl h2 h3 (fun i hi => hno i (List.mem_cons_of_mem inp hi)) ?_
      rcases hlate with ⟨i, hi, hin⟩
      rcases List.mem_cons.mp hi with rfl | hi
      · exact absurd hin ht
      · exact ⟨i, hi, hin⟩

/-- C2 counterexample: a daemon that starts with the socket path free
publishes its socket (hard-link) without ever having acquired any
advisory lock — the daemon in `daemon.rs` takes no lock at all (the
only trace of one is the TODO comment in `cleanup_socket`), so the
socket is connectable while no process holds a lock. -/
theorem c2_no_lock_counterexample :
    DaemonAction.publishSocket
        ∈ (run_daemon_with_sync "work" false true ffWorld []).acts
    ∧ DaemonAction.acquireLock
        ∉ (run_daemon_with_sync "work" false true ffWorld []).acts
    ∧ DaemonAction.releaseLock
        ∉ (run_daemon_with_sync "work" false true ffWorld []).acts := by
  refine ⟨by decide, by decide, by decide⟩

theorem not_loopAction_acquireLock : ¬loopAction .acquireLock := by
  intro h
  rcases h with h | h | h | h | ⟨op, h⟩ <;> simp at h

theorem not_loopAction_releaseLock : ¬loopAction .releaseLock := by
  intro h
  rcases h with h | h | h | h | ⟨op, h⟩ <;> simp at h

theorem not_loopAction_readRequestLine : ¬loopAction .readRequestLine := by
  intro h
  rcases h with h | h | h | h | ⟨op, h⟩ <;> simp at h

theorem not_loopAction_sendJsonResponse : ¬loopAction .sendJsonResponse := by
  intro h
  rcases h with h | h | h | h | ⟨op, h⟩ <;> simp at h

/-- C2 amended: the daemon uses no advisory lock at all (no run ever
performs a lock acquire or release); mutual exclusion rests solely on
atomic socket publication — when the public socket path is already
taken, startup aborts without publishing.  The socket is removed as
the final action on the handled shutdown paths: every normal loop exit
(first-client timeout and last-client drain) ends with the removal,
and the container-start failure exits with the removal as well.  It is
not removed on every exit, however: if `set_nonblocking` fails right
after publication, or if the watcher setup fails after a successful
container start, the daemon returns the error with the socket still
published and never removed. -/
theorem c2_publication_without_lock (branch : String) :
    (∀ (snb : Bool) (w : GitWorld) (inputs : List LoopInput),
        run_daemon_with_sync branch true snb w inputs
          = .finished false [.bindScratchSocket])
    ∧ (∀ (pt snb : Bool) (w : GitWorld) (inputs : List LoopInput),
        DaemonAction.acquireLock
            ∉ (run_daemon_with_sync branch pt snb w inputs).acts
        ∧ DaemonAction.releaseLock
            ∉ (run_daemon_with_sync branch pt snb w inputs).acts)
    ∧ (∀ (pt snb : Bool) (w : GitWorld) (inputs : List LoopInput)
        (acts : List DaemonAction),
        run_daemon_with_sync branch pt snb w inputs = .finished true acts →
        acts.getLast? = some .removeSocket)
    ∧ (∀ (inp : LoopInput) (st : DaemonState) (w : GitWorld),
        inp.accept = true → st.containerStarted = false →
        st.pendingClients = 0 → inp.containerStartOk = false →
        daemonStep branch inp st w
          = .exitErr [.startContainer, .removeSocket])
    ∧ (∀ (w : GitWorld) (inputs : List LoopInput),
        run_daemon_with_sync branch false false w inputs
          = .finished false [.bindScratchSocket, .publishSocket])
    ∧ (∀ (inp : LoopInput) (st : DaemonState) (w : GitWorld),
        inp.accept = true → st.containerStarted = false →
        st.pendingClients = 0 → inp.containerStartOk = true →
        inp.watcherOk = false →
        daemonStep branch inp st w
          = .exitErr [.startContainer, .writeReadyByte])
    ∧ DaemonAction.removeSocket
        ∉ ([.bindScratchSocket, .publishSocket] : List DaemonAction)
    ∧ DaemonAction.removeSocket
        ∉ ([.startContainer, .writeReadyByte] : List DaemonAction) := by
  refine ⟨fun snb w inputs => by cases snb <;> rfl, ?_, ?_, ?_, fun w inputs => rfl,
    ?_, by decide, by decide⟩
  · intro pt snb w inputs
    cases pt
    · cases snb
      · constructor <;> intro hmem <;>
          simp [run_daemon_with_sync, bind_socket, RunResult.acts] at hmem
      · constructor <;> intro hmem <;>
          rcases runLoop_acts_subset branch inputs initialDaemonState w
            [.bindScratchSocket, .publishSocket] _ hmem with h | h
        · simp at h
        · exact not_loopAction_acquireLock h
        · simp at h
        · exact not_loopAction_releaseLock h
    · constructor <;> intro hmem <;> cases snb <;>
        simp [run_daemon_with_sync, bind_socket, RunResult.acts] at hmem
  · intro pt snb w inputs acts hrun
    cases pt
    · cases snb
      · have heq : RunResult.finished false
              [DaemonAction.bindScratchSocket, DaemonAction.publishSocket]
            = .finished true acts := hrun
        simp only [RunResult.finished.injEq] at heq
        exact absurd heq.1 (by simp)
      · rcases runLoop_finished_true_last branch inputs initialDaemonState w
          [.bindScratchSocket, .publishSocket] acts hrun with ⟨pre, hpre⟩
        rw [hpre]
        exact List.getLast?_concat _
    · have heq : RunResult.finished false [DaemonAction.bindScratchSocket]
          = .finished true acts := by
        cases snb <;> exact hrun
      simp only [RunResult.finished.injEq] at heq
      exact absurd heq.1 (by simp)
  · intro inp st w hacc hns hp hfail
    exact daemonStep_of_error branch inp st w _
      (acceptPhase_first_fail inp st hacc hns hp hfail)
  · intro inp st w hacc hns hp hok hwf
    exact daemonStep_of_error branch inp st w _
      (acceptPhase_watcher_fail inp st hacc hns hp hok hwf)

/-- C2 witness: the path-taken run aborts unpublished; a quiet
40-second run with working syscalls publishes, times out and ends by
removing the socket; the set-nonblocking-failure run and the
watcher-failure step both terminate with the socket still published. -/
theorem c2_publication_without_lock_witness :
    run_daemon_with_sync "work" true true ffWorld []
      = .finished false [.bindScratchSocket]
    ∧ DaemonAction.acquireLock
        ∉ (run_daemon_with_sync "work" false true ffWorld
            [⟨40000, false, true, true, 0, none⟩]).acts
    ∧ ([DaemonAction.bindScratchSocket, DaemonAction.publishSocket,
        DaemonAction.removeSocket] : List DaemonAction).getLast?
        = some .removeSocket
    ∧ run_daemon_with_sync "work" false false ffWorld []
        = .finished false [.bindScratchSocket, .publishSocket]
    ∧ daemonStep "work" ⟨100, true, true, false, 0, none⟩ initialDaemonState
        ffWorld = .exitErr [.startContainer, .writeReadyByte] := by
  refine ⟨(c2_publication_without_lock "work").1 true ffWorld [], ?_, ?_,
    (c2_publication_without_lock "work").2.2.2.2.1 ffWorld [], ?_⟩
  · exact ((c2_publication_without_lock "work").2.1 false true ffWorld
      [⟨40000, false, true, true, 0, none⟩]).1
  · exact (c2_publication_without_lock "work").2.2.1 false true ffWorld
      [⟨40000, false, true, true, 0, none⟩]
      [.bindScratchSocket, .publishSocket, .removeSocket] rfl
  · exact (c2_publication_without_lock "work").2.2.2.2.2.1
      ⟨100, true, true, false, 0, none⟩ initialDaemonState ffWorld
      rfl rfl rfl rfl rfl

/-- C6: when the connected-client count returns to zero while the
container runs (it started because a first client once connected), the
iteration exits the loop and performs, in order: the final sync pass
(sandbox to hub first, then — when the first fetch succeeded — hub to
host), then the container stop, then the socket removal, and the
daemon exits successfully. -/
theorem c6_teardown_order (branch : String) (inp : LoopInput)
    (st : DaemonState) (w : GitWorld)
    (hstart : st.containerStarted = true) (hacc : inp.accept = false)
    (hpend : st.pendingClients = 0) (hdisc : st.clients ≤ inp.disconnects) :
    daemonStep branch inp st w
      = .exitOk ((syncPass w branch).2.map .gitOp
          ++ [.stopContainer, .removeSocket])
    ∧ ((syncPass w branch).2.map DaemonAction.gitOp).head?
        = some (.gitOp .sandboxToMeta)
    ∧ (syncOk (sync_sandbox_to_meta w branch) = true →
        (syncPass w branch).2 = [.sandboxToMeta, .metaToHost]) := by
  refine ⟨?_, ?_, ?_⟩
  · have hap := acceptPhase_noaccept inp st hacc
    have hstep := daemonStep_of_ok branch inp st st w [] hap
    rw [hstep, afterAccept_drain branch inp st [] w hstart
      (Nat.sub_eq_zero_of_le hdisc) hpend]
    rfl
  · rcases syncPass_shape w branch with ⟨hops, _⟩ | ⟨hops, _⟩ <;> simp [hops]
  · intro hok
    rcases syncPass_shape w branch with ⟨hops, hko⟩ | ⟨hops, _⟩
    · rw [hok] at hko
      exact absurd hko (by simp)
    · exact hops

/-- C6 witness: the teardown order at a concrete drain event. -/
theorem c6_teardown_order_witness :
    daemonStep "work" ⟨5000, false, true, true, 1, none⟩ ⟨1, 0, true, ⟨false, 0, 0⟩⟩
        ffWorld
      = .exitOk ((syncPass ffWorld "work").2.map .gitOp
          ++ [.stopContainer, .removeSocket])
    ∧ (syncPass ffWorld "work").2 = [.sandboxToMeta, .metaToHost] := by
  have h := c6_teardown_order "work" ⟨5000, false, true, true, 1, none⟩
    ⟨1, 0, true, ⟨false, 0, 0⟩⟩ ffWorld rfl rfl rfl (by decide)
  exact ⟨h.1, h.2.2 (by decide)⟩

/-- C7 counterexample: when the first client's container start fails,
the daemon exits with the error after removing the socket, but no
queued client is sent any response — no error response and no ready
byte appears in the trace; the queued connection is simply dropped. -/
theorem c7_no_error_response_counterexample :
    (daemonStep "work" ⟨100, true, false, true, 0, none⟩ initialDaemonState
        ffWorld).isErr = true
    ∧ (daemonStep "work" ⟨100, true, false, true, 0, none⟩ initialDaemonState
        ffWorld).acts = [.startContainer, .removeSocket]
    ∧ DaemonAction.sendJsonResponse
        ∉ (daemonStep "work" ⟨100, true, false, true, 0, none⟩ initialDaemonState
            ffWorld).acts
    ∧ DaemonAction.writeReadyByte
        ∉ (daemonStep "work" ⟨100, true, false, true, 0, none⟩ initialDaemonState
            ffWorld).acts := by
  refine ⟨by decide, by decide, by decide, by decide⟩

/-- C7 amended: if the container start attempted for the first queued
client fails, the daemon removes its socket and exits with an error
without retrying; the queued clients are not sent any response (no
error response, no ready byte) — they observe the failure only as EOF
when the process exits. -/
theorem c7_start_failure_terminates (branch : String) (inp : LoopInput)
    (st : DaemonState) (w : GitWorld)
    (hacc : inp.accept = true) (hns : st.containerStarted = false)
    (hp : st.pendingClients = 0) (hfail : inp.containerStartOk = false) :
    daemonStep branch inp st w = .exitErr [.startContainer, .removeSocket]
    ∧ DaemonAction.sendJsonResponse ∉ (daemonStep branch inp st w).acts
    ∧ DaemonAction.writeReadyByte ∉ (daemonStep branch inp st w).acts := by
  have h := acceptPhase_first_fail inp st hacc hns hp hfail
  have hstep := daemonStep_of_error branch inp st w _ h
  refine ⟨hstep, ?_, ?_⟩ <;> rw [hstep] <;> decide

/-- C7 witness: the failure path at a concrete input. -/
theorem c7_start_failure_terminates_witness :
    daemonStep "work" ⟨100, true, false, true, 0, none⟩ initialDaemonState ffWorld
      = .exitErr [.startContainer, .removeSocket] :=
  (c7_start_failure_terminates "work" ⟨100, true, false, true, 0, none⟩
    initialDaemonState ffWorld rfl rfl rfl rfl).1

/-- C8: a daemon that reached its waiting state (socket published,
listener successfully set non-blocking) and never receives a client
connection terminates on its own at the first loop iteration past the
30-second first-client timeout: its whole trace is bind, publish,
remove-socket — the socket is removed (as the final action), no lock
file ever existed, and the run finishes with success, not an error. -/
theorem c8_first_client_timeout (branch : String) (w : GitWorld)
    (inputs : List LoopInput)
    (hno : ∀ i ∈ inputs, i.accept = false)
    (hlate : ∃ i ∈ inputs, firstClientTimeoutMs < i.now) :
    run_daemon_with_sync branch false true w inputs
      = .finished true [.bindScratchSocket, .publishSocket, .removeSocket] := by
  have hrw : run_daemon_with_sync branch false true w inputs
      = runLoop branch inputs initialDaemonState w
          [.bindScratchSocket, .publishSocket] := rfl
  rw [hrw]
  exact runLoop_quiet branch inputs initialDaemonState w
    [.bindScratchSocket, .publishSocket] rfl rfl rfl hno hlate

/-- C8 witness: a single quiet iteration at 40 seconds. -/
theorem c8_first_client_timeout_witness :
    run_daemon_with_sync "work" false true ffWorld
        [⟨40000, false, true, true, 0, none⟩]
      = .finished true [.bindScratchSocket, .publishSocket, .removeSocket] :=
  c8_first_client_timeout "work" ffWorld [⟨40000, false, true, true, 0, none⟩]
    (by intro i hi; simp at hi; rw [hi]) (by refine ⟨⟨40000, false, true, true, 0, none⟩, by simp, by decide⟩)

/-- C9 counterexample: a client accepted while the container is running
is answered with a single raw ready byte; the daemon reads no request
line and writes no JSON response line, contradicting the claimed
one-request/one-response exchange. -/
theorem c9_no_request_read_counterexample :
    (daemonStep "work" ⟨1000, true, true, true, 0, none⟩ ⟨1, 0, true, ⟨false, 0, 0⟩⟩
        ffWorld).acts = [.writeReadyByte]
    ∧ DaemonAction.readRequestLine
        ∉ (daemonStep "work" ⟨1000, true, true, true, 0, none⟩
            ⟨1, 0, true, ⟨false, 0, 0⟩⟩ ffWorld).acts
    ∧ DaemonAction.sendJsonResponse
        ∉ (daemonStep "work" ⟨1000, true, true, true, 0, none⟩
            ⟨1, 0, true, ⟨false, 0, 0⟩⟩ ffWorld).acts := by
  refine ⟨by decide, by decide, by decide⟩

/-- C9 amended: the daemon loop never reads a request line and never
writes a JSON response over any client connection — the functions of
`daemon_protocol.rs` are not called by it; each client accepted while
the container is running is acknowledged with exactly one ready byte
(`0u8`) in that iteration, and that byte is the only per-client
output. -/
theorem c9_single_ready_byte (branch : String) (inp : LoopInput)
    (st : DaemonState) (w : GitWorld) :
    DaemonAction.readRequestLine ∉ (daemonStep branch inp st w).acts
    ∧ DaemonAction.sendJsonResponse ∉ (daemonStep branch inp st w).acts
    ∧ (inp.accept = true → st.containerStarted = true →
        (daemonStep branch inp st w).acts.count DaemonAction.writeReadyByte
          = 1) := by
  refine ⟨?_, ?_, ?_⟩
  · intro hmem
    exact not_loopAction_readRequestLine
      (daemonStep_acts_subset branch inp st w _ hmem)
  · intro hmem
    exact not_loopAction_sendJsonResponse
      (daemonStep_acts_subset branch inp st w _ hmem)
  · intro hacc hstart
    have hap := acceptPhase_started inp st hacc hstart
    have hstep := daemonStep_of_ok branch inp st _ w _ hap
    rw [hstep]
    by_cases hdr : st.clients + 1 - inp.disconnects = 0 ∧ st.pendingClients = 0
    · rw [afterAccept_drain branch inp
        { st with clients := st.clients + 1 } [DaemonAction.writeReadyByte] w
        hstart hdr.1 hdr.2]
      simp only [StepOut.acts, List.count_append]
      have ht : (teardown branch w).count DaemonAction.writeReadyByte = 0 := by
        rw [List.count_eq_zero]
        intro hmem
        unfold teardown at hmem
        rcases List.mem_append.mp hmem with h | h
        · rcases List.mem_map.mp h with ⟨op, _, hopeq⟩
          simp at hopeq
        · simp at h
      rw [ht]
      decide
    · rw [afterAccept_sync_acts branch inp
        { st with clients := st.clients + 1 } [DaemonAction.writeReadyByte] w
        hstart hdr]
      simp only [List.count_append]
      have hg : ((syncCycle branch inp.now
            (applyEvent inp.fsEvent st.sync) w).2.2.map
              DaemonAction.gitOp).count DaemonAction.writeReadyByte = 0 := by
        rw [List.count_eq_zero]
        intro hmem
        rcases List.mem_map.mp hmem with ⟨op, _, hopeq⟩
        simp at hopeq
      rw [hg]
      decide

/-- C9 witness: the acknowledgement count at a concrete accept. -/
theorem c9_single_ready_byte_witness :
    (daemonStep "work" ⟨1000, true, true, true, 0, none⟩ ⟨1, 0, true, ⟨false, 0, 0⟩⟩
        ffWorld).acts.count DaemonAction.writeReadyByte = 1 :=
  (c9_single_ready_byte "work" ⟨1000, true, true, true, 0, none⟩
    ⟨1, 0, true, ⟨false, 0, 0⟩⟩ ffWorld).2.2 rfl rfl

/-! ## The RPC protocol (`daemon_protocol.rs`)

The wire format is newline-delimited JSON; `serde_json`'s text
rendering and parsing are the library boundary and are modelled at the
JSON-value level: `Client::ensure_sandbox` writes one line holding the
serialization of its `Request`, and `server::read_request` parses one
line back into a `Request`.  The serde derive semantics (field names,
`snake_case` variant renaming, the untagged params variant, and the
skipped `None` params) are transcribed into explicit encoders and
field-name-directed decoders. -/

/-- `config.rs::UserInfo`. -/
structure UserInfo where
  uid : Nat
  gid : Nat
  username : String
  shell : String
deriving DecidableEq

/-- `daemon_protocol.rs::UserInfoWire`. -/
structure UserInfoWire where
  username : String
  uid : Nat
  gid : Nat
  shell : String
deriving DecidableEq

/-- `config.rs::Runtime`. -/
inductive Runtime
  | runsc
  | runc
  | sysboxRunc
deriving DecidableEq

/-- `daemon_protocol.rs::RuntimeWire` (serde `snake_case`). -/
inductive RuntimeWire
  | runsc
  | runc
  | sysboxRunc
deriving DecidableEq

/-- `config.rs::OverlayMode`. -/
inductive OverlayMode
  | overlayfs
  | copy
deriving DecidableEq

/-- `daemon_protocol.rs::OverlayModeWire`. -/
inductive OverlayModeWire
  | overlayfs
  | copy
deriving DecidableEq

/-- `impl From<&UserInfo> for UserInfoWire`. -/
def userInfoToWire (u : UserInfo) : UserInfoWire :=
  ⟨u.username, u.uid, u.gid, u.shell⟩

/-- `impl From<UserInfoWire> for UserInfo`. -/
def userInfoOfWire (w : UserInfoWire) : UserInfo :=
  ⟨w.uid, w.gid, w.username, w.shell⟩

/-- `impl From<Runtime> for RuntimeWire`. -/
def runtimeToWire : Runtime → RuntimeWire
  | .runsc => .runsc
  | .runc => .runc
  | .sysboxRunc => .sysboxRunc

/-- `impl From<RuntimeWire> for Runtime`. -/
def runtimeOfWire : RuntimeWire → Runtime
  | .runsc => .runsc
  | .runc => .runc
  | .sysboxRunc => .sysboxRunc

/-- `impl From<OverlayMode> for OverlayModeWire`. -/
def overlayModeToWire : OverlayMode → OverlayModeWire
  | .overlayfs => .overlayfs
  | .copy => .copy

/-- `impl From<OverlayModeWire> for OverlayMode`. -/
def overlayModeOfWire : OverlayModeWire → OverlayMode
  | .overlayfs => .overlayfs
  | .copy => .copy

/-- `daemon_protocol.rs::SandboxParams` (`PathBuf` as a string). -/
structure SandboxParams where
  project_dir : String
  image_tag : String
  user_info : UserInfoWire
  runtime : RuntimeWire
  overlay_mode : OverlayModeWire
  env_vars : List (String × String)
deriving DecidableEq

/-- JSON values, the codomain of `serde_json` serialization. -/
inductive Json
  | null
  | bool (b : Bool)
  | num (n : Nat)
  | str (s : String)
  | arr (items : List Json)
  | obj (fields : List (String × Json))

/-- Name-directed field access of serde struct deserialization. -/
def lookupField : List (String × Json) → String → Option Json
  | [], _ => none
  | (k, v) :: rest, n => if k = n then some v else lookupField rest n

def jsonField : Json → String → Option Json
  | .obj fields, name => lookupField fields name
  | _, _ => none

def encodeUserInfoWire (u : UserInfoWire) : Json :=
  .obj [("username", .str u.username), ("uid", .num u.uid),
        ("gid", .num u.gid), ("shell", .str u.shell)]

def encodeRuntimeWire : RuntimeWire → Json
  | .runsc => .str "runsc"
  | .runc => .str "runc"
  | .sysboxRunc => .str "sysbox_runc"

def encodeOverlayModeWire : OverlayModeWire → Json
  | .overlayfs => .str "overlayfs"
  | .copy => .str "copy"

def encodeEnvVars (l : List (String × String)) : Json :=
  .arr (l.map fun p => .arr [.str p.1, .str p.2])

def encodeSandboxParams (p : SandboxParams) : Json :=
  .obj [("project_dir", .str p.project_dir),
        ("image_tag", .str p.image_tag),
        ("user_info", encodeUserInfoWire p.user_info),
        ("runtime", encodeRuntimeWire p.runtime),
        ("overlay_mode", encodeOverlayModeWire p.overlay_mode),
        ("env_vars", encodeEnvVars p.env_vars)]

/-- `daemon_protocol.rs::Method` (serde `snake_case`). -/
inductive Method
  | ensureSandbox
deriving DecidableEq

/-- `daemon_protocol.rs::EnsureSandboxParams`. -/
structure EnsureSandboxParams where
  sandbox_name : String
  params : SandboxParams
deriving DecidableEq

/-- `daemon_protocol.rs::Request`; `params` is the single untagged
`RequestParams` variant, optional and skipped when absent. -/
structure Request where
  method : Method
  params : Option EnsureSandboxParams
deriving DecidableEq

def encodeMethod : Method → Json
  | .ensureSandbox => .str "ensure_sandbox"

def encodeEnsureSandboxParams (p : EnsureSandboxParams) : Json :=
  .obj [("sandbox_name", .str p.sandbox_name),
        ("params", encodeSandboxParams p.params)]

/-- Serialization of a `Request`: the `params` field is omitted when
`None` (`skip_serializing_if = "Option::is_none"`). -/
def encodeRequest (r : Request) : Json :=
  match r.params with
  | some p => .obj [("method", encodeMethod r.method),
                    ("params", encodeEnsureSandboxParams p)]
  | none => .obj [("method", encodeMethod r.method)]

/-- The request `Client::ensure_sandbox` sends for a name and
parameter record. -/
def ensure_sandbox_request (name : String) (params : SandboxParams) : Request :=
  ⟨.ensureSandbox, some ⟨name, params⟩⟩

/-- The JSON value whose rendering (plus a newline) is the line
`Client::ensure_sandbox` writes. -/
def ensure_sandbox_wire (name : String) (params : SandboxParams) : Json :=
  encodeRequest (ensure_sandbox_request name params)

def decodeString : Json → Except String String
  | .str s => .ok s
  | _ => .error "expected string"

def decodeNat : Json → Except String Nat
  | .num n => .ok n
  | _ => .error "expected number"

def decodeUserInfoWire (j : Json) : Except String UserInfoWire :=
  match jsonField j "username", jsonField j "uid",
        jsonField j "gid", jsonField j "shell" with
  | some ju, some jd, some jg, some js => do
    let username ← decodeString ju
    let uid ← decodeNat jd
    let gid ← decodeNat jg
    let shell ← decodeString js
    .ok ⟨username, uid, gid, shell⟩
  | _, _, _, _ => .error "missing field in user info"

def decodeRuntimeWire (j : Json) : Except String RuntimeWire :=
  match j with
  | .str s =>
    if s = "runsc" then .ok .runsc
    else if s = "runc" then .ok .runc
    else if s = "sysbox_runc" then .ok .sysboxRunc
    else .error "unknown runtime"
  | _ => .error "expected string"

def decodeOverlayModeWire (j : Json) : Except String OverlayModeWire :=
  match j with
  | .str s =>
    if s = "overlayfs" then .ok .overlayfs
    else if s = "copy" then .ok .copy
    else .error "unknown overlay mode"
  | _ => .error "expected string"

def decodeEnvPair : Json → Except String (String × String)
  | .arr [a, b] => do
    let x ← decodeString a
    let y ← decodeString b
    .ok (x, y)
  | _ => .error "expected a name-value pair"

def decodeEnvList : List Json → Except String (List (String × String))
  | [] => .ok []
  | j :: rest => do
    let p ← decodeEnvPair j
    let r ← decodeEnvList rest
    .ok (p :: r)

def decodeEnvVars : Json → Except String (List (String × String))
  | .arr items => decodeEnvList items
  | _ => .error "expected array"

def decodeSandboxParams (j : Json) : Except String SandboxParams :=
  match jsonField j "project_dir", jsonField j "image_tag",
        jsonField j "user_info", jsonField j "runtime",
        jsonField j "overlay_mode", jsonField j "env_vars" with
  | some j1, some j2, some j3, some j4, some j5, some j6 => do
    let project_dir ← decodeString j1
    let image_tag ← decodeString j2
    let user_info ← decodeUserInfoWire j3
    let runtime ← decodeRuntimeWire j4
    let overlay_mode ← decodeOverlayModeWire j5
    let env_vars ← decodeEnvVars j6
    .ok ⟨project_dir, image_tag, user_info, runtime, overlay_mode, env_vars⟩
  | _, _, _, _, _, _ => .error "missing field in sandbox params"

def decodeMethod (j : Json) : Except String Method :=
  match j with
  | .str s =>
    if s = "ensure_sandbox" then .ok .ensureSandbox
    else .error "unknown method"
  | _ => .error "expected string"

def decodeEnsureSandboxParams (j : Json) : Except String EnsureSandboxParams :=
  match jsonField j "sandbox_name", jsonField j "params" with
  | some jn, some jp => do
    let name ← decodeString jn
    let params ← decodeSandboxParams jp
    .ok ⟨name, params⟩
  | _, _ => .error "missing field in ensure sandbox params"

def decodeRequest (j : Json) : Except String Request := do
  let m ← match jsonField j "method" with
    | some jm => decodeMethod jm
    | none => Except.error "missing method"
  let p ← match jsonField j "params" with
    | some jp => (decodeEnsureSandboxParams jp).map some
    | none => Except.ok none
  .ok ⟨m, p⟩

/-- The request halves of `daemon_protocol.rs::server`. -/
inductive ClientRequest
  | ensureSandbox (sandbox_name : String) (params : SandboxParams)
deriving DecidableEq

/-- `server::read_request`: parse one line into a `Request`, then
demand the `EnsureSandbox` params. -/
def read_request (j : Json) : Except String ClientRequest := do
  let r ← decodeRequest j
  match r.method with
  | .ensureSandbox =>
    match r.params with
    | some p => Except.ok (.ensureSandbox p.sandbox_name p.params)
    | none => Except.error "missing params for ensure_sandbox"

theorem decodeEnvList_map (l : List (String × String)) :
    decodeEnvList (l.map fun p => .arr [.str p.1, .str p.2]) = .ok l := by
  induction l with
  | nil => rfl
  | cons p rest ih =>
    rcases p with ⟨a, b⟩
    simp only [List.map, decodeEnvList, decodeEnvPair, decodeString, ih]
    rfl

theorem decodeRuntimeWire_encode (r : RuntimeWire) :
    decodeRuntimeWire (encodeRuntimeWire r) = .ok r := by
  cases r <;> rfl

theorem decodeOverlayModeWire_encode (m : OverlayModeWire) :
    decodeOverlayModeWire (encodeOverlayModeWire m) = .ok m := by
  cases m <;> rfl

theorem decodeUserInfoWire_encode (u : UserInfoWire) :
    decodeUserInfoWire (encodeUserInfoWire u) = .ok u := by
  rcases u with ⟨un, uid, gid, sh⟩
  rfl

theorem decodeSandboxParams_encode (p : SandboxParams) :
    decodeSandboxParams (encodeSandboxParams p) = .ok p := by
  rcases p with ⟨pd, it, ui, rt, om, ev⟩
  cases rt <;> cases om <;>
  · show Except.bind
        (decodeEnvList (ev.map fun q => Json.arr [Json.str q.1, Json.str q.2]))
        _ = _
    rw [decodeEnvList_map]
    rfl

theorem decodeEnsureSandboxParams_encode (q : EnsureSandboxParams) :
    decodeEnsureSandboxParams (encodeEnsureSandboxParams q) = .ok q := by
  rcases q with ⟨name, params⟩
  show Except.bind (decodeSandboxParams (encodeSandboxParams params)) _ = _
  rw [decodeSandboxParams_encode]
  rfl

/-- C10: serializing an ensure-sandbox request the way
`Client::ensure_sandbox` does and parsing it with
`server::read_request` returns `EnsureSandbox` with the original name
and parameters, and the three wire conversion pairs compose to the
identity in both directions. -/
theorem c10_protocol_roundtrip :
    (∀ (name : String) (params : SandboxParams),
        read_request (ensure_sandbox_wire name params)
          = .ok (.ensureSandbox name params))
    ∧ (∀ u : UserInfo, userInfoOfWire (userInfoToWire u) = u)
    ∧ (∀ u : UserInfoWire, userInfoToWire (userInfoOfWire u) = u)
    ∧ (∀ r : Runtime, runtimeOfWire (runtimeToWire r) = r)
    ∧ (∀ r : RuntimeWire, runtimeToWire (runtimeOfWire r) = r)
    ∧ (∀ m : OverlayMode, overlayModeOfWire (overlayModeToWire m) = m)
    ∧ (∀ m : OverlayModeWire, overlayModeToWire (overlayModeOfWire m) = m) := by
  refine ⟨?_, ?_, ?_, ?_, ?_, ?_, ?_⟩
  · intro name params
    show Except.bind
        (Except.bind
          (Except.map some
            (decodeEnsureSandboxParams
              (encodeEnsureSandboxParams ⟨name, params⟩))) _) _ = _
    rw [decodeEnsureSandboxParams_encode]
    rfl
  · intro u
    rcases u with ⟨uid, gid, un, sh⟩
    rfl
  · intro u
    rcases u with ⟨un, uid, gid, sh⟩
    rfl
  · intro r
    cases r <;> rfl
  · intro r
    cases r <;> rfl
  · intro m
    cases m <;> rfl
  · intro m
    cases m <;> rfl

end Sandbox
